import Mathlib

/-
Verification development for the ipc-client checkpointing agent.

The Rust sources under scrutiny are shallowly embedded below:
  * `src/src/manager/checkpoint.rs`  (bottom-up checkpoint subsystem),
  * `src/src/manager/topdown.rs`     (top-down checkpoint loop),
  * `src/src/manager/lotus.rs`       (native-backend subnet operations),
  * `src/src/manager/evm/manager.rs` (address conversion for the EVM backend),
  * `src/eth-keystore/src/memory.rs` (in-memory key store).

Stateful loops become pure tick functions over explicit oracle records that
carry the values returned by the chain RPC calls; fallible Rust code returns
`Except`; Rust `HashMap`s become association lists or option-valued
functions.  Types that live in crates outside the source tree
(`crate::config`, `ipc_sdk`, `fvm_shared`, `ipc_gateway`) are modelled from
the specification and are marked as such in their doc comments.
-/

namespace IpcAgent

/-- Modelled from the spec: `Address` (from the external `fvm_shared` crate)
is used by the checkpoint loops only as an opaque account identifier with
decidable equality, so the loop models represent one by a natural number.
(The payload structure of addresses, needed for the EVM conversion claims,
is modelled separately below as `FilPayload`.) -/
abbrev Addr := Nat

/-- Modelled from the spec: `SubnetID` (from the external `ipc_sdk` crate,
spec section 3) is a hierarchical path: a root id followed by a route of
child addresses. -/
structure SubnetID where
  root : Nat
  children : List Addr
deriving DecidableEq, Repr, Inhabited

/-- Modelled from the spec: `SubnetID::parent` is the prefix without the
last segment, absent for a root id. -/
def SubnetID.parent (s : SubnetID) : Option SubnetID :=
  if s.children.isEmpty then none
  else some ⟨s.root, s.children.dropLast⟩

/-- Modelled from the spec: `crate::config::Subnet` (spec section 3) as far
as the checkpoint loops consume it: an id and the list of managed accounts.
The transport fields (rpc endpoint, auth token, backend parameters) never
influence the control flow under verification and are carried inertly. -/
structure Subnet where
  id : SubnetID
  accounts : List Addr
  rpcEndpoint : String
deriving DecidableEq, Repr, Inhabited

/-- Association-list model of the `HashMap<SubnetID, Subnet>` config
snapshot; `mapLookup` is `HashMap::get` / indexing. -/
def mapLookup (m : List (SubnetID × Subnet)) (k : SubnetID) : Option Subnet :=
  match m with
  | [] => none
  | (k2, v) :: rest => if k2 = k then some v else mapLookup rest k

/-- Embedding of `subnets_to_manage` (checkpoint.rs, lines 126-135): iterate
the map values, keep subnets with at least one account whose parent id is
also a key of the map, and pair each with the parent subnet looked up in the
map. -/
def subnetsToManage (m : List (SubnetID × Subnet)) : List (Subnet × Subnet) :=
  (((m.map Prod.snd).filter (fun s => !s.accounts.isEmpty)).filter
      (fun s => s.id.parent.isSome && (mapLookup m (s.id.parent.getD default)).isSome)).map
    (fun s => (s, (mapLookup m (s.id.parent.getD default)).getD default))

/-- Claim C3: a subnet `s` is selected for management, paired with parent
subnet `q`, if and only if `s` is a value of the snapshot, `s.accounts` is
nonempty, and `s.id.parent` exists and is a key of the snapshot; the pair is
always `(s, snapshot[s.id.parent()])`. -/
theorem subnets_to_manage_mem_iff (m : List (SubnetID × Subnet)) (s q : Subnet) :
    (s, q) ∈ subnetsToManage m ↔
      (s ∈ m.map Prod.snd ∧ s.accounts ≠ [] ∧
        ∃ p, s.id.parent = some p ∧ mapLookup m p = some q) := by
  unfold subnetsToManage
  constructor
  · intro h
    rcases List.mem_map.mp h with ⟨t, ht, heq⟩
    rcases Prod.mk.injEq .. ▸ heq with ⟨rfl, hq⟩
    rcases List.mem_filter.mp ht with ⟨ht1, ht2⟩
    rcases List.mem_filter.mp ht1 with ⟨hmem, hacc⟩
    rcases Bool.and_eq_true .. ▸ ht2 with ⟨hpar, hlook⟩
    rcases Option.isSome_iff_exists.mp hpar with ⟨p, hp⟩
    refine ⟨hmem, ?_, p, hp, ?_⟩
    · intro habs
      simp [habs] at hacc
    · rcases Option.isSome_iff_exists.mp (by simpa [hp] using hlook) with ⟨v, hv⟩
      rw [← hq]
      simp [hp, hv]
  · rintro ⟨hmem, hacc, p, hp, hq⟩
    refine List.mem_map.mpr ⟨s, ?_, ?_⟩
    · refine List.mem_filter.mpr ⟨List.mem_filter.mpr ⟨hmem, ?_⟩, ?_⟩
      · simpa using hacc
      · simp [hp, hq]
    · simp [hp, hq]

/-- Error model for `anyhow::Error` values surfaced by RPC calls and
submissions: just a message. -/
structure RpcErr where
  msg : String
deriving DecidableEq, Repr, Inhabited

/-- Modelled from the spec: `checkpoint_epoch` lives in the external
`ipc_gateway` crate.  The spec determines it at concrete points: scenario 1
of section 8 requires that period 10 with child head 25 yields epoch 20 and
child head 35 yields epoch 30 (the general formula of section 3 disagrees
with those points, and the points are what the test scenario fixes).  Hence:
the highest multiple of the period at or below the height.  Rust `i64`
division truncates toward zero, hence `Int.div`. -/
def checkpoint_epoch (epoch period : Int) : Int :=
  epoch.tdiv period * period

/-- Chain responses consumed by one iteration of the bottom-up loop in
`manage_subnet` (checkpoint.rs, lines 172-257).  Each field is the value the
corresponding RPC call returns during that iteration. -/
structure BuTickOracle where
  childHeadHeight : Int
  checkPeriod : Int
  getCheckpoint : Int → Except RpcErr Unit
  validators : List Addr
  submit : Addr → Int → Except RpcErr Unit

/-- Embedding of the per-account loop of `manage_subnet` (checkpoint.rs,
lines 231-250): for each configured account that is in the validator set,
submit a checkpoint on its behalf; the `?` on `submit_checkpoint` propagates
the first error, ending the loop.  The result records the (account, epoch)
submissions of a fully successful pass. -/
def submitAccounts (o : BuTickOracle) (epoch : Int) :
    List Addr → Except RpcErr (List (Addr × Int))
  | [] => .ok []
  | a :: rest =>
    if a ∈ o.validators then
      match o.submit a epoch with
      | .error e => .error e
      | .ok () =>
        match submitAccounts o epoch rest with
        | .error e => .error e
        | .ok l => .ok ((a, epoch) :: l)
    else submitAccounts o epoch rest

/-- Embedding of one iteration of the `manage_subnet` loop (checkpoint.rs,
lines 172-257): read the child head, compute the checkpoint epoch, skip the
whole tick when `ipc_get_checkpoint` on the parent returns Ok (already
committed), otherwise run the per-account submission loop. -/
def manageSubnetTick (child : Subnet) (o : BuTickOracle) :
    Except RpcErr (List (Addr × Int)) :=
  let epoch := checkpoint_epoch o.childHeadHeight o.checkPeriod
  if (o.getCheckpoint epoch).isOk then .ok []
  else submitAccounts o epoch child.accounts

/-- Embedding of the `manage_subnet` loop as a whole: `oracles n` is the
chain state observed at tick `n`, and `fuel` counts the ticks until the stop
notification fires inside `wait_next_iteration` (upon which the manager
returns Ok).  An error in a tick propagates out of the `try` block, so the
manager returns it at once. -/
def manageSubnetLoop (child : Subnet) (oracles : Nat → BuTickOracle) :
    Nat → Nat → Except RpcErr Unit
  | _, 0 => .ok ()
  | n, fuel + 1 =>
    match manageSubnetTick child (oracles n) with
    | .error e => .error e
    | .ok _ => manageSubnetLoop child oracles (n + 1) fuel

/-- A fully successful per-account pass submits exactly for the configured
accounts that are in the validator set, in configuration order, all at the
given epoch. -/
theorem submitAccounts_all_ok (o : BuTickOracle) (epoch : Int) (accounts : List Addr)
    (h : ∀ a ∈ accounts, a ∈ o.validators → o.submit a epoch = .ok ()) :
    submitAccounts o epoch accounts =
      .ok ((accounts.filter (fun a => decide (a ∈ o.validators))).map
        (fun a => (a, epoch))) := by
  induction accounts with
  | nil => rfl
  | cons a rest ih =>
    have hrest : ∀ b ∈ rest, b ∈ o.validators → o.submit b epoch = .ok () :=
      fun b hb => h b (List.mem_cons_of_mem a hb)
    by_cases hv : a ∈ o.validators
    · simp [submitAccounts, hv, h a (List.mem_cons_self a rest) hv, ih hrest,
        List.filter_cons]
    · simp [submitAccounts, hv, ih hrest, List.filter_cons]

/-- Claim C9: duplicate suppression in the bottom-up loop is per epoch, not
per validator: when fetching the committed checkpoint for the computed epoch
from the parent succeeds, the tick submits nothing for any managed account
and moves on to the sleep; when fetching it fails with any error at all, the
tick proceeds to build and submit for every eligible account. -/
theorem bu_duplicate_suppression_per_epoch (child : Subnet) (o : BuTickOracle) :
    ((o.getCheckpoint (checkpoint_epoch o.childHeadHeight o.checkPeriod)).isOk →
      manageSubnetTick child o = .ok []) ∧
    (∀ e, o.getCheckpoint (checkpoint_epoch o.childHeadHeight o.checkPeriod) = .error e →
      (∀ a ∈ child.accounts, a ∈ o.validators →
        o.submit a (checkpoint_epoch o.childHeadHeight o.checkPeriod) = .ok ()) →
      manageSubnetTick child o =
        .ok ((child.accounts.filter (fun a => decide (a ∈ o.validators))).map
          (fun a => (a, checkpoint_epoch o.childHeadHeight o.checkPeriod)))) := by
  constructor
  · intro h
    simp [manageSubnetTick, h]
  · intro e he hsub
    have : (o.getCheckpoint (checkpoint_epoch o.childHeadHeight o.checkPeriod)).isOk = false := by
      rw [he]; rfl
    simp only [manageSubnetTick, this, Bool.false_eq_true, if_false]
    exact submitAccounts_all_ok o _ child.accounts hsub

/-- Witness for claim C9 at a concrete state: with the checkpoint already
committed nothing is submitted; with the fetch failing, the single eligible
account's checkpoint is submitted at epoch 20. -/
theorem bu_duplicate_suppression_per_epoch_witness :
    manageSubnetTick ⟨⟨0, [100]⟩, [1], ""⟩
        ⟨25, 10, fun _ => .ok (), [1], fun _ _ => .ok ()⟩ = .ok [] ∧
    manageSubnetTick ⟨⟨0, [100]⟩, [1], ""⟩
        ⟨25, 10, fun _ => .error ⟨"not committed"⟩, [1], fun _ _ => .ok ()⟩ =
      .ok [(1, 20)] := by
  constructor
  · exact (bu_duplicate_suppression_per_epoch _ _).1 rfl
  · have := (bu_duplicate_suppression_per_epoch ⟨⟨0, [100]⟩, [1], ""⟩
      ⟨25, 10, fun _ => .error ⟨"not committed"⟩, [1], fun _ _ => .ok ()⟩).2
      ⟨"not committed"⟩ rfl (by intro a _ _; rfl)
    simpa using this

/-- Every submission recorded by a successful per-account pass carries the
epoch the pass was invoked with. -/
theorem submitAccounts_epochs (o : BuTickOracle) (epoch : Int) (accounts : List Addr)
    (l : List (Addr × Int)) (hl : submitAccounts o epoch accounts = .ok l) :
    ∀ pr ∈ l, pr.2 = epoch := by
  induction accounts generalizing l with
  | nil =>
    simp only [submitAccounts] at hl
    cases hl
    intro pr h
    cases h
  | cons a rest ih =>
    simp only [submitAccounts] at hl
    by_cases hv : a ∈ o.validators
    · rw [if_pos hv] at hl
      cases hs : o.submit a epoch with
      | error e => rw [hs] at hl; cases hl
      | ok u =>
        cases u
        rw [hs] at hl
        cases hr : submitAccounts o epoch rest with
        | error e => rw [hr] at hl; cases hl
        | ok l2 =>
          rw [hr] at hl
          cases hl
          intro pr hpr
          rcases List.mem_cons.mp hpr with h | h
          · rw [h]
          · exact ih l2 hr pr h
    · rw [if_neg hv] at hl
      exact ih l hl


/-- Claim C6 (amended): every checkpoint a bottom-up tick submits is for
epoch `(h tdiv P) * P`, the highest multiple of the period at or below the
current child head; in particular period 10 with child head 25 gives
epoch 20 (not the epoch 30 that the formula of the claim would give). -/
theorem bu_submission_epoch (child : Subnet) (o : BuTickOracle)
    (l : List (Addr × Int)) (hl : manageSubnetTick child o = .ok l) :
    (∀ pr ∈ l, pr.2 = checkpoint_epoch o.childHeadHeight o.checkPeriod) ∧
    checkpoint_epoch 25 10 = 20 := by
  refine ⟨?_, by decide⟩
  unfold manageSubnetTick at hl
  by_cases hc : (o.getCheckpoint (checkpoint_epoch o.childHeadHeight o.checkPeriod)).isOk
  · rw [if_pos hc] at hl
    cases hl
    intro pr h
    cases h
  · rw [if_neg hc] at hl
    exact submitAccounts_epochs o _ child.accounts l hl

/-- Witness for claim C6 at a concrete state: with period 10, child head 25,
no committed checkpoint and one eligible account, the tick submits exactly
one checkpoint and its epoch is 20. -/
theorem bu_submission_epoch_witness :
    (∀ pr ∈ ([(1, 20)] : List (Addr × Int)), pr.2 = checkpoint_epoch 25 10) ∧
    checkpoint_epoch 25 10 = 20 :=
  bu_submission_epoch ⟨⟨0, [100]⟩, [1], ""⟩
    ⟨25, 10, fun _ => .error ⟨"not committed"⟩, [1], fun _ _ => .ok ()⟩
    [(1, 20)] rfl

/-- Claim C6 as stated is false on the code: at period 10 and child head 25
the tick builds and submits epoch 20, while the formula of the claim,
the floor of (h + P) / P times P, gives 30. -/
theorem bu_submission_epoch_counterexample :
    manageSubnetTick ⟨⟨0, [100]⟩, [1], ""⟩
        ⟨25, 10, fun _ => .error ⟨"not committed"⟩, [1], fun _ _ => .ok ()⟩ =
      .ok [(1, 20)] ∧
    ((25 + 10 : Int).tdiv 10) * 10 = 30 ∧ (20 : Int) ≠ 30 := by
  refine ⟨rfl, by decide, by decide⟩

/-- Claim C4 (amended): a failure while building or submitting the
checkpoint for one account aborts the per-pair tick with that error -- the
remaining accounts are not attempted, whatever they are -- and the pair's
manager loop, seeing the tick error, terminates with it. -/
theorem bu_submit_failure_aborts (child : Subnet) (o : BuTickOracle) (epoch : Int)
    (pre post : List Addr) (a : Addr) (e : RpcErr)
    (oracles : Nat → BuTickOracle) (fuel : Nat)
    (hpre : ∀ b ∈ pre, b ∈ o.validators → o.submit b epoch = .ok ())
    (ha : a ∈ o.validators) (he : o.submit a epoch = .error e)
    (htick : manageSubnetTick child (oracles 0) = .error e) :
    submitAccounts o epoch (pre ++ a :: post) = .error e ∧
    manageSubnetLoop child oracles 0 (fuel + 1) = .error e := by
  constructor
  · induction pre with
    | nil => simp [submitAccounts, ha, he]
    | cons b pre ih =>
      have hb : b ∈ o.validators → o.submit b epoch = .ok () :=
        hpre b (List.mem_cons_self b pre)
      have hpre2 : ∀ c ∈ pre, c ∈ o.validators → o.submit c epoch = .ok () :=
        fun c hc => hpre c (List.mem_cons_of_mem b hc)
      by_cases hv : b ∈ o.validators
      · simp [submitAccounts, hv, hb hv, ih hpre2]
      · simp [submitAccounts, hv, ih hpre2]
  · simp [manageSubnetLoop, htick]

/-- Witness for the amended claim C4 at a concrete state: with accounts
1 and 2 both in the validator set and the submission for account 1 failing,
the per-account pass returns the failure and the manager loop terminates
with it. -/
theorem bu_submit_failure_aborts_witness :
    submitAccounts
        ⟨25, 10, fun _ => .error ⟨"nc"⟩, [1, 2],
          fun a _ => if a = 1 then .error ⟨"boom"⟩ else .ok ()⟩ 20 ([] ++ 1 :: [2]) =
      .error ⟨"boom"⟩ ∧
    manageSubnetLoop ⟨⟨0, [100]⟩, [1, 2], ""⟩
        (fun _ => ⟨25, 10, fun _ => .error ⟨"nc"⟩, [1, 2],
          fun a _ => if a = 1 then .error ⟨"boom"⟩ else .ok ()⟩) 0 (3 + 1) =
      .error ⟨"boom"⟩ :=
  bu_submit_failure_aborts ⟨⟨0, [100]⟩, [1, 2], ""⟩
    ⟨25, 10, fun _ => .error ⟨"nc"⟩, [1, 2],
      fun a _ => if a = 1 then .error ⟨"boom"⟩ else .ok ()⟩
    20 [] [2] 1 ⟨"boom"⟩
    (fun _ => ⟨25, 10, fun _ => .error ⟨"nc"⟩, [1, 2],
      fun a _ => if a = 1 then .error ⟨"boom"⟩ else .ok ()⟩) 3
    (by intro b hb; cases hb) (by decide) rfl rfl

/-- Claim C4 as stated is false on the code at a concrete state: accounts 1
and 2 are both eligible for epoch 20, the submission for account 1 fails and
the one for account 2 would succeed, yet the tick result is the account-1
error -- account 2 is never attempted -- and the manager loop for the pair
returns that error instead of continuing. -/
theorem bu_submit_failure_counterexample :
    manageSubnetTick ⟨⟨0, [100]⟩, [1, 2], ""⟩
        ⟨25, 10, fun _ => .error ⟨"nc"⟩, [1, 2],
          fun a _ => if a = 1 then .error ⟨"boom"⟩ else .ok ()⟩ =
      .error ⟨"boom"⟩ ∧
    manageSubnetLoop ⟨⟨0, [100]⟩, [1, 2], ""⟩
        (fun _ => ⟨25, 10, fun _ => .error ⟨"nc"⟩, [1, 2],
          fun a _ => if a = 1 then .error ⟨"boom"⟩ else .ok ()⟩) 0 5 =
      .error ⟨"boom"⟩ := by
  exact ⟨rfl, rfl⟩

/-- Modelled from the spec: a top-down cross message (`CrossMsg` of the
external `ipc_gateway` crate, spec section 3) carries a monotonically
increasing nonce; a payload string stands for the parts the claims never
inspect. -/
structure CrossMsg where
  nonce : Nat
  payload : String
deriving DecidableEq, Repr, Inhabited

/-- Modelled from the spec: `TopDownCheckpoint` of the external
`ipc_gateway` crate (spec section 3). -/
structure TopDownCheckpoint where
  epoch : Int
  topDownMsgs : List CrossMsg
deriving DecidableEq, Repr, Inhabited

/-- Error model for the top-down submission path.  The `messageGap`
constructor is the `MessageGap` error the spec prescribes for a nonce
discontinuity; the embedding below shows the source never produces it. -/
inductive TdErr where
  | messageGap
  | rpc (msg : String)
deriving DecidableEq, Repr, Inhabited

/-- Chain responses consumed by one iteration of
`manage_topdown_checkpoints` (topdown.rs, lines 55-165) and by
`submit_topdown_checkpoint` (lines 177-230).  `appliedNonceAt h` is the
`applied_topdown_nonce` of the child gateway state at the tipset resolved at
height `h`; `parentMsgs n` is what `ipc_get_topdown_msgs` returns for
`from_nonce = n`; `hasVoted` is the vote query the code means to make (its
call is commented out in the source). -/
structure TdOracle where
  parentHeight : Int
  lastExec : Int
  period : Int
  validators : List Addr
  hasVoted : Addr → Int → Bool
  appliedNonceAt : Int → Nat
  parentMsgs : Nat → List CrossMsg

/-- Embedding of `submit_topdown_checkpoint` (topdown.rs, lines 177-230):
resolve the submission tipset at height `last_executed + 2`, read the
applied top-down nonce there, fetch from the parent all messages from that
nonce plus one, and push a `TopDownCheckpoint` holding exactly the returned
messages.  No contiguity check is made on the returned nonces.  The result
is the (account, checkpoint) message pushed to the mempool. -/
def submit_topdown_checkpoint (submissionEpoch lastExecuted : Int) (account : Addr)
    (o : TdOracle) : Except TdErr (Addr × TopDownCheckpoint) :=
  let nonce := o.appliedNonceAt (lastExecuted + 2) + 1
  let topDownMsgs := o.parentMsgs nonce
  .ok (account, { epoch := submissionEpoch, topDownMsgs := topDownMsgs })

/-- Embedding of the per-account loop of `manage_topdown_checkpoints`
(topdown.rs, lines 95-156).  The vote check is stubbed in the source: the
real query is commented out (lines 101-110) and replaced by
`let has_voted = true;` (line 111), so the submission branch -- including
the second-opportunity resubmission of lines 124-153 -- is dead code. -/
def tdAccountsLoop (o : TdOracle) (submissionEpoch : Int) :
    List Addr → Except TdErr (List (Addr × TopDownCheckpoint))
  | [] => .ok []
  | a :: rest =>
    if a ∈ o.validators then
      let hasVoted := true
      if !hasVoted then
        match submit_topdown_checkpoint submissionEpoch o.lastExec a o with
        | .error e => .error e
        | .ok sub =>
          match tdAccountsLoop o submissionEpoch rest with
          | .error e => .error e
          | .ok l => .ok (sub :: l)
      else tdAccountsLoop o submissionEpoch rest
    else tdAccountsLoop o submissionEpoch rest

/-- Embedding of one iteration of the `manage_topdown_checkpoints` loop
(topdown.rs, lines 55-157): compute the submission epoch as
`last_executed + period`; when the parent head has reached it, run the
per-account loop over the managed accounts that are in the validator set. -/
def manageTopdownTick (child : Subnet) (o : TdOracle) :
    Except TdErr (List (Addr × TopDownCheckpoint)) :=
  let submissionEpoch := o.lastExec + o.period
  if o.parentHeight ≥ submissionEpoch then
    tdAccountsLoop o submissionEpoch child.accounts
  else .ok []

/-- Claim C1: the top-down loop never submits anything -- for every chain
state, including states where the parent head has reached the submission
epoch and a managed validator has not voted for it, a tick performs no
submission, because the vote check is hard-coded to `true` at topdown.rs
line 111 and the submission branch is dead. -/
theorem td_tick_never_submits (child : Subnet) (o : TdOracle) :
    manageTopdownTick child o = .ok [] := by
  have hloop : ∀ accounts : List Addr, ∀ se : Int,
      tdAccountsLoop o se accounts = .ok [] := by
    intro accounts
    induction accounts with
    | nil => intro se; rfl
    | cons a rest ih =>
      intro se
      by_cases hv : a ∈ o.validators
      · simp [tdAccountsLoop, hv, ih se]
      · simp [tdAccountsLoop, hv, ih se]
  unfold manageTopdownTick
  by_cases hh : o.parentHeight ≥ o.lastExec + o.period
  · simp [hh, hloop]
  · simp [hh]

/-- Nonces forming the contiguous range that starts at `n`: written from the
words of the spec (*nonce contiguity*, spec section 8) for comparison with
what the source builds. -/
def noncesContiguousFrom : Nat → List Nat → Bool
  | _, [] => true
  | n, m :: rest => m == n && noncesContiguousFrom (n + 1) rest

/-- Claim C2 (amended): a built top-down checkpoint carries the submission
epoch and exactly the messages the parent returns for nonces from
`applied_topdown_nonce + 1`, the applied nonce being read at the submission
tipset of height `last_executed + 2`; no nonce-contiguity check is made, so
the submission never fails -- in particular never with `MessageGap` -- even
when the returned nonces have a gap. -/
theorem td_submit_no_gap_check (se le : Int) (a : Addr) (o : TdOracle) :
    (∀ e, submit_topdown_checkpoint se le a o ≠ .error e) ∧
    ∃ ck, submit_topdown_checkpoint se le a o = .ok (a, ck) ∧
      ck.epoch = se ∧
      ck.topDownMsgs = o.parentMsgs (o.appliedNonceAt (le + 2) + 1) := by
  constructor
  · intro e h
    exact Except.noConfusion h
  · exact ⟨_, rfl, rfl, rfl⟩

/-- Claim C2 as stated is false on the code at a concrete state: with
`applied_topdown_nonce = 7` at the submission tipset and the parent
returning messages with nonces 8, 9, 11 (a gap at 10), the submission does
not fail with `MessageGap` -- it succeeds and pushes a checkpoint holding
the gapped messages. -/
theorem td_submit_gap_counterexample :
    submit_topdown_checkpoint 20 10 1
        ⟨20, 10, 10, [1], fun _ _ => false, fun _ => 7,
          fun n => if n = 8 then [⟨8, "m8"⟩, ⟨9, "m9"⟩, ⟨11, "m11"⟩] else []⟩ =
      .ok (1, ⟨20, [⟨8, "m8"⟩, ⟨9, "m9"⟩, ⟨11, "m11"⟩]⟩) ∧
    noncesContiguousFrom 8 [8, 9, 11] = false ∧
    submit_topdown_checkpoint 20 10 1
        ⟨20, 10, 10, [1], fun _ _ => false, fun _ => 7,
          fun n => if n = 8 then [⟨8, "m8"⟩, ⟨9, "m9"⟩, ⟨11, "m11"⟩] else []⟩ ≠
      .error .messageGap := by
  exact ⟨rfl, by decide, fun h => Except.noConfusion h⟩

/-- Witness for the amended claim C2 at a concrete state: with the applied
top-down nonce 4 at the submission tipset and the parent returning the
single message of nonce 5, the submission succeeds with epoch 30 and exactly
that message. -/
theorem td_submit_no_gap_check_witness :
    ∃ ck, submit_topdown_checkpoint 30 20 2
        ⟨30, 20, 10, [2], fun _ _ => false, fun _ => 4, fun n => [⟨n, "x"⟩]⟩ =
      .ok (2, ck) ∧ ck.epoch = 30 ∧ ck.topDownMsgs = [⟨5, "x"⟩] :=
  (td_submit_no_gap_check 30 20 2
    ⟨30, 20, 10, [2], fun _ _ => false, fun _ => 4, fun n => [⟨n, "x"⟩]⟩).2

/-- Modelled from the spec: the external string form of a `SubnetID` (spec
section 6) is `/root/seg1/.../segn`; the loop models render each route
segment from its numeric id. -/
def SubnetID.toStr (s : SubnetID) : String :=
  (s.children.map (fun a => "/f0" ++ toString a)).foldl (fun acc seg => acc ++ seg)
    ("/" ++ toString s.root)

/-- Modelled from the spec: `SubnetID::subnet_actor` is the last segment of
the path, the address of the subnet actor on the parent. -/
def SubnetID.subnetActor (s : SubnetID) : Addr :=
  s.children.getLastD 0

/-- The mpool methods the native-backend operations invoke. -/
inductive NativeMethod where
  | initExec
  | join
  | leave
  | kill
deriving DecidableEq, Repr, Inhabited

/-- The message a native-backend operation pushes to the mempool: recipient,
sender, method and attached value. -/
structure PushedMsg where
  target : Addr
  sender : Addr
  method : NativeMethod
  value : Nat
deriving DecidableEq, Repr, Inhabited

/-- Modelled from the spec: the init actor singleton the create operation
addresses. -/
def initActorAddr : Addr := 1

/-- The error text of the inverted network guard (lotus.rs, lines 25, 59,
79, 95). -/
def wrongNetworkMsg : String :=
  "subnet actor being deployed in the wrong parent network, parent network names do not match"

/-- Embedding of `is_network_match` (lotus.rs, lines 140-143): compare the
printed subnet id with the chain's reported network name. -/
def is_network_match (networkName : String) (network : SubnetID) : Bool :=
  network.toStr == networkName

/-- Embedding of `join_subnet` (lotus.rs, lines 51-75): guard on
`is_network_match`, then push the Join message with the collateral to the
subnet actor. -/
def join_subnet (networkName : String) (subnet : SubnetID) (sender : Addr)
    (collateral : Nat) : Except String PushedMsg :=
  if is_network_match networkName subnet then .error wrongNetworkMsg
  else .ok ⟨subnet.subnetActor, sender, .join, collateral⟩

/-- Embedding of `leave_subnet` (lotus.rs, lines 77-91). -/
def leave_subnet (networkName : String) (subnet : SubnetID) (sender : Addr) :
    Except String PushedMsg :=
  if is_network_match networkName subnet then .error wrongNetworkMsg
  else .ok ⟨subnet.subnetActor, sender, .leave, 0⟩

/-- Embedding of `kill_subnet` (lotus.rs, lines 93-107). -/
def kill_subnet (networkName : String) (subnet : SubnetID) (sender : Addr) :
    Except String PushedMsg :=
  if is_network_match networkName subnet then .error wrongNetworkMsg
  else .ok ⟨subnet.subnetActor, sender, .kill, 0⟩

/-- Embedding of `create_subnet` (lotus.rs, lines 23-49): the guard runs on
`params.parent`, then the exec message goes to the init actor. -/
def create_subnet (networkName : String) (paramsParent : SubnetID) (sender : Addr) :
    Except String PushedMsg :=
  if is_network_match networkName paramsParent then .error wrongNetworkMsg
  else .ok ⟨initActorAddr, sender, .initExec, 0⟩

/-- Claim C5: evaluation of the code.  Every one of the four native-backend
operations succeeds exactly when the target id does NOT print as the
chain's network name -- the guard is inverted with respect to the claim --
and at the concrete failing input, a matching name, join_subnet returns the
wrong-network error while a differing name proceeds to push the Join
message. -/
theorem native_ops_error_iff_names_match (nn : String) (s : SubnetID)
    (sender collateral : Addr) (pparent : SubnetID) :
    ((join_subnet nn s sender collateral).isOk = !(s.toStr == nn)) ∧
    ((leave_subnet nn s sender).isOk = !(s.toStr == nn)) ∧
    ((kill_subnet nn s sender).isOk = !(s.toStr == nn)) ∧
    ((create_subnet nn pparent sender).isOk = !(pparent.toStr == nn)) ∧
    join_subnet "/314" ⟨314, []⟩ 7 5 = .error wrongNetworkMsg ∧
    join_subnet "/314" ⟨99, []⟩ 7 5 = .ok ⟨0, 7, .join, 5⟩ := by
  refine ⟨?_, ?_, ?_, ?_, rfl, rfl⟩
  · by_cases h : SubnetID.toStr s == nn <;>
      simp [join_subnet, is_network_match, h] <;> rfl
  · by_cases h : SubnetID.toStr s == nn <;>
      simp [leave_subnet, is_network_match, h] <;> rfl
  · by_cases h : SubnetID.toStr s == nn <;>
      simp [kill_subnet, is_network_match, h] <;> rfl
  · by_cases h : SubnetID.toStr pparent == nn <;>
      simp [create_subnet, is_network_match, h] <;> rfl

/-- Embedding of `MemoryKeyStore` (eth-keystore/src/memory.rs): the
`HashMap<T, KeyInfo>` becomes an option-valued function on the key type.
The key type `T` and the `KeyInfo` type are parameters, as `KeyInfo` is
declared outside the source tree; `tryFrom` stands for the
`TryFrom<KeyInfo>` key derivation bound. -/
structure MemoryKeyStore (T K : Type) where
  data : T → Option K

/-- Embedding of `MemoryKeyStore::get` (memory.rs, lines 19-21): a plain
lookup, absent keys give Ok(None). -/
def MemoryKeyStore.get (s : MemoryKeyStore T K) (addr : T) : Except String (Option K) :=
  .ok (s.data addr)

/-- Embedding of `MemoryKeyStore::put` (memory.rs, lines 27-32): derive the
key from the key info; on failure return the conversion error, otherwise
insert, overwriting any existing entry. -/
def MemoryKeyStore.put [DecidableEq T] (tryFrom : K → Option T)
    (s : MemoryKeyStore T K) (info : K) : Except String (MemoryKeyStore T K) :=
  match tryFrom info with
  | none => .error "cannot convert private key to public key"
  | some addr => .ok ⟨fun k => if k = addr then some info else s.data k⟩

/-- Claim C10: a successful put stores the info under the key derived from
it, overwriting whatever was there, so a following get of that key returns
Ok(Some info); get of an absent key returns Ok(None) rather than an error;
and put fails exactly when the key cannot be derived from the info. -/
theorem memory_keystore_put_get {T K : Type} [DecidableEq T]
    (tryFrom : K → Option T) (s s2 : MemoryKeyStore T K) (info : K) (addr : T) :
    (MemoryKeyStore.put tryFrom s info = .ok s2 →
      ∃ k, tryFrom info = some k ∧ s2.get k = .ok (some info)) ∧
    (s.data addr = none → s.get addr = .ok none) ∧
    ((MemoryKeyStore.put tryFrom s info).isOk = (tryFrom info).isSome) := by
  refine ⟨?_, ?_, ?_⟩
  · intro h
    unfold MemoryKeyStore.put at h
    cases hf : tryFrom info with
    | none => rw [hf] at h; cases h
    | some k =>
      rw [hf] at h
      cases h
      exact ⟨k, rfl, by simp [MemoryKeyStore.get]⟩
  · intro h
    simp [MemoryKeyStore.get, h]
  · unfold MemoryKeyStore.put
    cases hf : tryFrom info <;> rfl

/-- Witness for claim C10 at a concrete store: putting info 5 with identity
key derivation into the empty store makes get 5 return Ok(Some 5), and get 9
on the empty store returns Ok(None). -/
theorem memory_keystore_put_get_witness :
    (∃ k, some 5 = some k ∧
      MemoryKeyStore.get
        (⟨fun k => if k = 5 then some 5 else (fun _ => none) k⟩ : MemoryKeyStore Nat Nat) k =
        .ok (some 5)) ∧
    MemoryKeyStore.get (⟨fun _ => none⟩ : MemoryKeyStore Nat Nat) 9 = .ok none :=
  ⟨(memory_keystore_put_get (fun n => some n) ⟨fun _ => none⟩
      ⟨fun k => if k = 5 then some 5 else (fun _ => none) k⟩ 5 9).1 rfl,
   (memory_keystore_put_get (fun n => some n) (⟨fun _ => none⟩ : MemoryKeyStore Nat Nat)
      ⟨fun _ => none⟩ 5 9).2.1 rfl⟩

/-- State of one spawned `manage_subnet` future as the cooperative
scheduler sees it: `busy k` is a future executing its iteration body with
`k` suspension steps left before it next reaches `wait_next_iteration`;
`parked` is a future suspended in the select of `wait_next_iteration`
(checkpoint.rs, lines 267-272) with no notification pending; `finished` is
a future that has returned. -/
inductive SupFuture where
  | busy (k : Nat)
  | parked
  | finished
deriving DecidableEq, Repr, Inhabited

/-- Embedding of `stop_subnet_managers.notify_waiters()` (checkpoint.rs,
line 110) with the tokio semantics: exactly the tasks currently waiting are
woken -- a parked future's select completes on the notified branch,
`wait_next_iteration` returns false and the future returns Ok; busy and
finished futures are untouched, and no permit is stored for them. -/
def notifyWaiters (sups : List SupFuture) : List SupFuture :=
  sups.map fun s =>
    match s with
    | .parked => .finished
    | other => other

/-- One scheduling step of a supervisor future in the absence of a
notification: a busy future progresses; a busy future whose iteration body
ends parks in `wait_next_iteration`; a parked future whose sleep elapses
returns true from `wait_next_iteration` and starts the next iteration.  A
finished future takes no step: it is not runnable. -/
inductive SupStep : SupFuture → SupFuture → Prop where
  | work (k : Nat) : SupStep (.busy (k + 1)) (.busy k)
  | park : SupStep (.busy 0) .parked
  | tick (k : Nat) : SupStep .parked (.busy k)

/-- A future that has returned. -/
def SupFuture.isFinished : SupFuture → Bool
  | .finished => true
  | _ => false

/-- Embedding of the event arm of `CheckpointSubsystem::run` (checkpoint.rs,
lines 92-117): once the select yields a shutdown request or a config event,
run calls `notify_waiters` on the stop notification and then awaits
`manage_subnets_task`, the task draining the `manage_subnet` futures.  The
await completes -- only then does run return or spawn the next generation
of supervisors -- precisely when every future of the generation has
finished; `none` models run still blocked in the await. -/
def runEventStep (sups : List SupFuture) : Option (List SupFuture) :=
  let ns := notifyWaiters sups
  if ns.all SupFuture.isFinished then some ns else none

/-- Claim C7: when `run` proceeds past the await of the driving task --
that is, before it returns or spawns the next generation of supervisors --
every previously spawned pair supervisor has finished; a finished future is
not runnable (it takes no scheduling step); and every supervisor that is
sleeping between polls when the notification fires observes it and exits
instead of starting a new iteration. -/
theorem subsystem_shutdown_quiescence (sups after : List SupFuture)
    (hrun : runEventStep sups = some after) :
    (∀ s ∈ after, s = .finished) ∧
    (∀ s t : SupFuture, SupStep s t → s ≠ .finished) ∧
    ((∀ s ∈ sups, s = .parked) → ∀ s ∈ notifyWaiters sups, s = .finished) := by
  refine ⟨?_, ?_, ?_⟩
  · intro s hs
    unfold runEventStep at hrun
    by_cases hall : (notifyWaiters sups).all SupFuture.isFinished
    · rw [if_pos hall] at hrun
      cases hrun
      have := List.all_eq_true.mp hall s hs
      cases s with
      | busy k => cases this
      | parked => cases this
      | finished => rfl
    · rw [if_neg hall] at hrun
      cases hrun
  · intro s t hstep
    cases hstep <;> intro h <;> cases h
  · intro hpark s hs
    rcases List.mem_map.mp hs with ⟨t, ht, heq⟩
    rw [hpark t ht] at heq
    exact heq.symm

/-- Witness for claim C7 at a concrete generation: with two supervisors
both parked in `wait_next_iteration` when the event fires, the await
completes and both futures are finished. -/
theorem subsystem_shutdown_quiescence_witness :
    (∀ s ∈ [SupFuture.finished, SupFuture.finished], s = SupFuture.finished) ∧
    (∀ s t : SupFuture, SupStep s t → s ≠ .finished) ∧
    ((∀ s ∈ [SupFuture.parked, SupFuture.parked], s = SupFuture.parked) →
      ∀ s ∈ notifyWaiters [SupFuture.parked, SupFuture.parked], s = .finished) :=
  subsystem_shutdown_quiescence [SupFuture.parked, SupFuture.parked]
    [SupFuture.finished, SupFuture.finished] rfl

/-- Modelled from the spec: the payload classes of a native Filecoin
address (`Payload` of the external `fvm_shared` crate): ID, secp256k1 key
hash, actor hash, BLS key, or delegated with an actor namespace and a
subaddress of bytes. -/
inductive FilPayload where
  | id (n : Nat)
  | secp (b : List Nat)
  | actor (b : List Nat)
  | bls (b : List Nat)
  | delegated (ns : Nat) (sub : List Nat)
deriving DecidableEq, Repr, Inhabited

/-- Whether a payload is of the delegated class. -/
def FilPayload.isDelegated : FilPayload → Bool
  | .delegated _ _ => true
  | _ => false

/-- Outcome classes of the conversion: the returned error of the catch-all
arm, or the panic raised by slicing `subaddress[0..20]` out of a shorter
subaddress. -/
inductive EvmAddrErr where
  | addressConversion (msg : String)
  | panic
deriving DecidableEq, Repr, Inhabited

/-- Embedding of `payload_to_evm_address` (evm/manager.rs, lines 505-514):
a delegated payload yields the first 20 bytes of its subaddress (the
slice `&slice[0..20]` panics when the subaddress is shorter than 20
bytes, modelled as the `panic` error); every other class returns the
conversion error. -/
def payload_to_evm_address : FilPayload → Except EvmAddrErr (List Nat)
  | .delegated _ sub =>
    if 20 ≤ sub.length then .ok (sub.take 20) else .error .panic
  | _ => .error (.addressConversion "invalid is invalid")

/-- RFC 4648 base32 value of a lowercase character. -/
def b32Val (c : Char) : Option Nat :=
  if 'a' ≤ c ∧ c ≤ 'z' then some (c.toNat - 'a'.toNat)
  else if '2' ≤ c ∧ c ≤ '7' then some (c.toNat - '2'.toNat + 26)
  else none

/-- Accumulate base32 digits, most significant first, into a value and a
bit count. -/
def b32Fold (cs : List Char) : Option (Nat × Nat) :=
  cs.foldl
    (fun acc c =>
      match acc, b32Val c with
      | some (n, bits), some v => some (n * 32 + v, bits + 5)
      | _, _ => none)
    (some (0, 0))

/-- The `k` bytes of `m`, most significant first. -/
def natToBytesBE (m : Nat) : Nat → List Nat
  | 0 => []
  | k + 1 => (m >>> (8 * k)) % 256 :: natToBytesBE m k

/-- RFC 4648 base32 decoding without padding: the trailing bits that do not
fill a byte are padding and are dropped. -/
def base32Decode (cs : List Char) : Option (List Nat) :=
  match b32Fold cs with
  | none => none
  | some (n, bits) => some (natToBytesBE (n >>> (bits % 8)) (bits / 8))

/-- A nonempty run of decimal digits as a number. -/
def parseDigits (cs : List Char) : Option Nat :=
  match cs with
  | [] => none
  | _ =>
    cs.foldl
      (fun acc c =>
        match acc with
        | some n => if c.isDigit then some (n * 10 + (c.toNat - 48)) else none
        | none => none)
      (some 0)

/-- Modelled from the spec: parsing a protocol-4 address segment of a
SubnetID path (the `Address::from_str` of the external `fvm_shared` crate,
spec section 6 external form): network prefix `f`, protocol `4`, the actor
namespace in decimal, a separator `f`, then the base32 encoding of the
subaddress followed by a 4-byte checksum.  Checksum verification (blake2b)
only validates the string and does not alter the decoded subaddress; it is
omitted here. -/
def parseF4Segment (s : String) : Option FilPayload :=
  match s.data with
  | 'f' :: '4' :: rest =>
    match parseDigits (rest.takeWhile (fun c => c.isDigit)),
        rest.dropWhile (fun c => c.isDigit) with
    | some ns, 'f' :: b32 =>
      match base32Decode b32 with
      | some bytes =>
        if 4 ≤ bytes.length then
          some (.delegated ns (bytes.take (bytes.length - 4)))
        else none
      | none => none
    | _, _ => none
  | _ => none

/-- Claim C8 (amended): converting a SubnetID path segment to an EVM
address succeeds exactly for native delegated addresses whose subaddress
has at least 20 bytes, yielding the first 20 bytes (a shorter delegated
subaddress hits the out-of-range slice `&slice[0..20]`, a panic); every
non-delegated native address class fails with the address-conversion
error; and the segment f410ffzyuupbyl2uiucmzr3lu3mtf3luyknthaz4xsrq
parses to a 20-byte delegated payload that maps to the EVM address
0x2e714a3c385ea88a09998ed74db265dae9853667. -/
theorem payload_to_evm_address_spec (ns : Nat) (sub : List Nat) (p : FilPayload)
    (hlen : 20 ≤ sub.length) (hnd : p.isDelegated = false) :
    payload_to_evm_address (.delegated ns sub) = .ok (sub.take 20) ∧
    payload_to_evm_address p = .error (.addressConversion "invalid is invalid") ∧
    (∃ pl, parseF4Segment "f410ffzyuupbyl2uiucmzr3lu3mtf3luyknthaz4xsrq" = some pl ∧
      payload_to_evm_address pl =
        .ok [0x2e, 0x71, 0x4a, 0x3c, 0x38, 0x5e, 0xa8, 0x8a, 0x09, 0x99,
             0x8e, 0xd7, 0x4d, 0xb2, 0x65, 0xda, 0xe9, 0x85, 0x36, 0x67]) := by
  refine ⟨by simp [payload_to_evm_address, hlen], ?_, ?_⟩
  · cases p with
    | id n => rfl
    | secp b => rfl
    | actor b => rfl
    | bls b => rfl
    | delegated ns2 sub2 => cases hnd
  · exact ⟨.delegated 10 [0x2e, 0x71, 0x4a, 0x3c, 0x38, 0x5e, 0xa8, 0x8a, 0x09, 0x99,
      0x8e, 0xd7, 0x4d, 0xb2, 0x65, 0xda, 0xe9, 0x85, 0x36, 0x67], by rfl, by rfl⟩

/-- Witness for the amended claim C8 at concrete payloads: a delegated
address with a 20-byte subaddress converts to those bytes, and an ID
address fails with the conversion error. -/
theorem payload_to_evm_address_spec_witness :
    payload_to_evm_address (.delegated 10 (List.range 20)) =
      .ok ((List.range 20).take 20) ∧
    payload_to_evm_address (.id 3) =
      .error (.addressConversion "invalid is invalid") ∧
    (∃ pl, parseF4Segment "f410ffzyuupbyl2uiucmzr3lu3mtf3luyknthaz4xsrq" = some pl ∧
      payload_to_evm_address pl =
        .ok [0x2e, 0x71, 0x4a, 0x3c, 0x38, 0x5e, 0xa8, 0x8a, 0x09, 0x99,
             0x8e, 0xd7, 0x4d, 0xb2, 0x65, 0xda, 0xe9, 0x85, 0x36, 0x67]) :=
  payload_to_evm_address_spec 10 (List.range 20) (.id 3) (by decide) rfl

/-- Claim C8 as stated is false on the code at a concrete input: a
delegated address with an empty subaddress is a native delegated address,
yet the conversion does not succeed -- the slice `&slice[0..20]` is out of
range, a panic, not a success and not the address-conversion error either. -/
theorem payload_to_evm_address_counterexample :
    FilPayload.isDelegated (.delegated 10 []) = true ∧
    payload_to_evm_address (.delegated 10 []) = .error .panic := by
  exact ⟨rfl, rfl⟩

end IpcAgent
